import Mathlib

/-!
The ybook server: request pipeline, cache invalidation, rate cascade and search dispatch.

A shallow embedding of `internal/middleware.go` and `internal/router.go`.

* Go strings are byte sequences: `GoString` is `List UInt8`, `len` is `List.length`,
  `s[n:]` is `sliceFrom` (it faults when `n` exceeds the length, as the Go slice expression does).
* A gin context is the record `St`; a handler receives what `c.Next()` does as its first argument.
* Code of the `pkg` package and of third-party libraries that is not among the sources
  (path simplification, the ignore matcher, the loader, the limiter decision) enters through
  the record `Env` or is modelled where its doc comment says so.
-/

namespace Ybook

/-! ## Go strings -/

/-- A Go `string`: an immutable sequence of bytes. -/
abbrev GoString := List UInt8

/-- The bytes of an ASCII literal. -/
def str (s : String) : GoString := s.toList.map (fun c => UInt8.ofNat c.toNat)

/-- The Go slice expression `s[n:]`; `none` stands for the run-time fault
"slice bounds out of range". -/
def sliceFrom (s : GoString) (n : Nat) : Option GoString :=
  if n ≤ s.length then some (s.drop n) else none

/-- The function `strings.HasSuffix`:
`len(s) >= len(suffix) && s[len(s)-len(suffix):] == suffix`. -/
def HasSuffix (s suffix : GoString) : Bool :=
  decide (suffix.length ≤ s.length) && (s.drop (s.length - suffix.length) == suffix)

/-- The byte `/`, the path separator of `os.IsPathSeparator` on a Unix build. -/
def slash : UInt8 := 47

/-- The byte `.`. -/
def dot : UInt8 := 46

/-- The loop of `filepath.Ext`: the argument is `i + 1` for the loop index `i`, which runs
from `len(path) - 1` down to `0` and stops at the first path separator. -/
def extLoop (path : GoString) : Nat → GoString
  | 0 => []
  | i + 1 =>
    match path[i]? with
    | none => []
    | some c =>
      if c = slash then []
      else if c = dot then path.drop i
      else extLoop path i

/-- The function `filepath.Ext`: the suffix beginning at the final dot in the final
element of the path, empty if there is no dot. -/
def Ext (path : GoString) : GoString := extLoop path path.length

/-- The function `ContentType` of `middleware.go`; `none` stands for a fault of the slice
expression `filepath.Ext(url)[1:]`. -/
def ContentType (url : GoString) : Option GoString :=
  if HasSuffix url (str ".png") || HasSuffix url (str ".jpg") || HasSuffix url (str ".jpeg") then
    (sliceFrom (Ext url) 1).map (fun ext => str "image/" ++ ext)
  else if HasSuffix url (str ".css") then
    some (str "text/css; charset=utf-8")
  else
    some (str "text/html; charset=utf-8")

/-- The function `filepath.ToSlash` on a build whose path separator is `/`: the path is
returned unchanged. -/
def ToSlash (path : GoString) : GoString := path

/-- The digits of a decimal numeral, most significant first; `none` when a byte is not an
ASCII digit. -/
def parseDigits : Nat → GoString → Option Nat
  | acc, [] => some acc
  | acc, d :: ds =>
    if 48 ≤ d.toNat ∧ d.toNat ≤ 57 then parseDigits (acc * 10 + (d.toNat - 48)) ds else none

/-- The function `strconv.Atoi` for a 64-bit `int`: an optional sign, then at least one
decimal digit and nothing else, the value within the `int` range; `none` is a non-nil error. -/
def Atoi (s : GoString) : Option Int :=
  let neg : Bool := s.head? = some 45
  let ds : GoString := if s.head? = some 45 ∨ s.head? = some 43 then s.drop 1 else s
  if ds = [] then none
  else
    match parseDigits 0 ds with
    | none => none
    | some n =>
      if neg then (if n ≤ 2 ^ 63 then some (-(n : Int)) else none)
      else (if n < 2 ^ 63 then some (n : Int) else none)

/-! ## Collaborators that are not among the sources -/

/-- Modelled from the spec: the type `pkg.BlogItem` is not among the sources; the handlers
read its `Html` field and the answers of `IsDir()` and `IsMd()` (§3, "rendered output
bytes, a content classification (directory / source-document / other)"). -/
structure BlogItem where
  Html : GoString
  IsDir : Bool
  IsMd : Bool
deriving DecidableEq, Repr

/-- Modelled from the spec: the type `pkg.Cache` is not among the sources; §6 gives it as
`get(key) -> (value, found)`, `set(key, value)`, `remove(key)`, `removeAll()`. It is a finite
key-value store here; eviction under the capacity bound, whose policy the core does not
see, is left out. -/
structure Cache where
  entries : List (GoString × BlogItem)
deriving DecidableEq, Repr

/-- The lookup `blogCache.Get(key)`; `none` is `found == false`. -/
def Cache.Get (c : Cache) (key : GoString) : Option BlogItem := c.entries.lookup key

/-- The removal `blogCache.Remove(key)`. -/
def Cache.Remove (c : Cache) (key : GoString) : Cache :=
  ⟨c.entries.filter (fun e => e.1 != key)⟩

/-- The store `blogCache.Set(key, value)`: the previous entry of the key is overwritten. -/
def Cache.Set (c : Cache) (key : GoString) (value : BlogItem) : Cache :=
  ⟨(key, value) :: (c.Remove key).entries⟩

/-- Modelled from the spec: the type `pkg.GitIgnorer` is not among the sources; a pattern
set is seen through its one observable, whether a path matches a pattern of the set (§3). -/
abbrev GitIgnorer := GoString → Bool

/-- Modelled from the spec: the function `pkg.PathMatch(path, sets...)` is not among the
sources; §3 and §4.3 have a path match when a pattern of any of the given sets matches. -/
def PathMatch (path : GoString) (sets : List GitIgnorer) : Bool := sets.any (fun g => g path)

/-- An entry of `config.SEARCH_PLUGINS`: the fields `NewApp` reads. -/
structure SearchPlugin where
  Name : GoString
  Disable : Bool
deriving DecidableEq, Repr

/-- The fields of `pkg.Config` that the handlers and `NewApp` read. -/
structure Config where
  BLOG_PATH : GoString
  BLOG_ROUTER : GoString
  NOT_GEN : Bool
  SEARCH_NUM : Int
  SEARCH_PLUGINS : List SearchPlugin

/-- The configuration together with the functions of `pkg`, `filepath` and `fsutil` that the
handlers call and that are not among the sources. -/
structure Env where
  config : Config
  /-- The function `pkg.SimplifyPath`. -/
  SimplifyPath : GoString → GoString
  /-- The function `filepath.Dir`. -/
  Dir : GoString → GoString
  /-- The pattern set `app.hide`. -/
  hide : GitIgnorer
  /-- The pattern set `app.private`. -/
  priv : GitIgnorer
  /-- The method `blogLoader.LoadBlog`; `Except.error` carries the returned `err`. -/
  LoadBlog : GoString → Except GoString BlogItem
  /-- The function `pkg.GenPath(URL, config)`. -/
  GenPath : GoString → GoString
  /-- The function `pkg.TransformLinks(file, config)`. -/
  TransformLinks : GoString → GoString
  /-- Whether `fsutil.MustWrite(path, file)` returns a non-nil error. -/
  MustWriteErr : GoString → GoString → Bool

/-- The expression `config.BLOG_PATH + "/" + url[len(config.BLOG_ROUTER)+1:]` followed by
`pkg.SimplifyPath`, as `PrivateMiddleWare`, `BlogCacheMiddleware` and `GenMiddleWare` each
compute it; `none` is the fault of the slice expression. -/
def storagePath (env : Env) (url : GoString) : Option GoString :=
  (sliceFrom url (env.config.BLOG_ROUTER.length + 1)).map
    (fun rest => env.SimplifyPath (env.config.BLOG_PATH ++ str "/" ++ rest))

/-- Modelled from the spec: the method `blogLoader.Url2Path` is not among the sources. §4.5
has the load stage store its result "keyed by NormalizedPath", the key the cache stage looks
up, and §4.1 obtains that key by stripping the route and simplifying. -/
def Url2Path (env : Env) (url : GoString) : Option GoString := storagePath env url

/-! ## The gin context -/

/-- What a render call hands to the response writer. -/
inductive Payload where
  /-- The call `c.Data(code, contentType, data)`. -/
  | data (contentType : GoString) (bytes : GoString)
  /-- The call `c.JSON(code, gin.H{"error": message})`. -/
  | jsonError (message : GoString)
  /-- The call `c.JSON(code, list)` for a `[]string`. -/
  | jsonStrings (items : List GoString)
deriving DecidableEq, Repr

/-- The objects a request shares with the other requests and with the background
consumers: the blog cache, the snapshot files written by `fsutil.MustWrite` (in order),
the paths handed to `blogLoader.LoadBlog` (in order), and the calls made to a search
strategy (strategy name, keyword, limit; in order). -/
structure World where
  blogCache : Cache
  files : List (GoString × GoString)
  loads : List GoString
  searches : List (GoString × GoString × Int)
deriving DecidableEq, Repr

/-- A `gin.Context` while a request is handled, with the shared objects its handlers reach. -/
structure St where
  /-- The field `c.Request.URL.Path`. -/
  url : GoString
  /-- The field `c.index`, the position in the handler chain. -/
  index : Int
  /-- The answer of `c.Writer.Status()`. -/
  status : Int
  /-- The answer of `c.Writer.Written()`. -/
  written : Bool
  /-- The render calls that reached the response writer, in order. -/
  out : List Payload
  /-- The field `c.Errors`. -/
  errors : List GoString
  world : World
deriving DecidableEq, Repr

/-- Why a run did not return a context: a Go run-time panic, or the evaluation bound of
the model was reached. -/
inductive Fault where
  | panic
  | outOfFuel
deriving DecidableEq, Repr

deriving instance DecidableEq for Except

/-- What a handler returns: the context it leaves, or a fault. -/
abbrev Result := Except Fault St

/-- A `gin.HandlerFunc`; the first argument is what `c.Next()` does when the handler calls it. -/
abbrev HandlerFunc := (St → Result) → St → Result

/-- The constant `abortIndex` of gin (`math.MaxInt8 >> 1`). -/
def abortIndex : Int := 63

/-- The context gin hands to the first handler: `c.reset()` and a fresh response writer,
whose status is `http.StatusOK`. -/
def reset (url : GoString) (w : World) : St :=
  { url := url, index := -1, status := 200, written := false, out := [], errors := [], world := w }

/-- The method `c.IsAborted()`. -/
def St.IsAborted (s : St) : Bool := decide (abortIndex ≤ s.index)

/-- The method `c.Abort()`. -/
def Abort (s : St) : St := { s with index := abortIndex }

/-- The method `c.Status(code)`, that is `responseWriter.WriteHeader`: a non-positive code
and a code equal to the current one change nothing, and once the header is written the
status stays. -/
def Status (code : Int) (s : St) : St :=
  if 0 < code ∧ s.status ≠ code then (if s.written then s else { s with status := code }) else s

/-- The method `c.Writer.WriteHeaderNow()`. -/
def WriteHeaderNow (s : St) : St := { s with written := true }

/-- The function `bodyAllowedForStatus` of gin. -/
def bodyAllowedForStatus (code : Int) : Bool :=
  !(decide (100 ≤ code ∧ code ≤ 199) || decide (code = 204) || decide (code = 304))

/-- The method `c.Render(code, r)`: set the status, then write the payload unless the status
forbids a body. -/
def Render (code : Int) (p : Payload) (s : St) : St :=
  let s1 := Status code s
  if bodyAllowedForStatus code then { s1 with written := true, out := s1.out ++ [p] }
  else WriteHeaderNow s1

/-- The method `c.Data(code, contentType, data)`. -/
def Data (code : Int) (contentType bytes : GoString) (s : St) : St :=
  Render code (.data contentType bytes) s

/-- The method `c.AbortWithStatus(code)`. -/
def AbortWithStatus (code : Int) (s : St) : St := Abort (WriteHeaderNow (Status code s))

/-- The method `c.AbortWithError(code, err)`. -/
def AbortWithError (code : Int) (err : GoString) (s : St) : St :=
  let s1 := AbortWithStatus code s
  { s1 with errors := s1.errors ++ [err] }

/-- The method `c.AbortWithStatusJSON(code, obj)`: abort, then render the object. -/
def AbortWithStatusJSON (code : Int) (obj : Payload) (s : St) : St := Render code obj (Abort s)

/-- The loop of `c.Next()`: `for c.index < len(c.handlers) { c.handlers[c.index](c); c.index++ }`.
The first argument bounds the number of handler calls still allowed on this path. -/
def runHandlers (handlers : List HandlerFunc) : Nat → St → Result
  | 0, _ => .error .outOfFuel
  | fuel + 1, s =>
    if s.index < 0 then .error .panic
    else
      match handlers[s.index.toNat]? with
      | none => .ok s
      | some h =>
        match h (fun c => runHandlers handlers fuel { c with index := c.index + 1 }) s with
        | .error e => .error e
        | .ok s1 => runHandlers handlers fuel { s1 with index := s1.index + 1 }

/-- The method `c.Next()`: `c.index++`, then the loop. -/
def Next (handlers : List HandlerFunc) (fuel : Nat) (s : St) : Result :=
  runHandlers handlers fuel { s with index := s.index + 1 }

/-! ## The handlers of `middleware.go` -/

/-- The handler `PrivateMiddleWare(private, config)`. -/
def PrivateMiddleWare (env : Env) : HandlerFunc := fun _ s =>
  match storagePath env s.url with
  | none => .error .panic
  | some path =>
    if PathMatch path [env.priv] then .ok (AbortWithStatus 404 s) else .ok s

/-- The handler `BlogCacheMiddleware(blogCache, config)`. -/
def BlogCacheMiddleware (env : Env) : HandlerFunc := fun _ s =>
  match storagePath env s.url with
  | none => .error .panic
  | some path =>
    match ContentType path with
    | none => .error .panic
    | some contentType =>
      match s.world.blogCache.Get path with
      | some blog => .ok (Abort (Data 200 contentType blog.Html s))
      | none => .ok s

/-- The handler `LoadBlogMiddleware(blogCache, blogLoader)`. -/
def LoadBlogMiddleware (env : Env) : HandlerFunc := fun _ s =>
  match Url2Path env s.url with
  | none => .error .panic
  | some filePath =>
    let s1 : St := { s with world := { s.world with loads := s.world.loads ++ [filePath] } }
    match env.LoadBlog filePath with
    | .error err => .ok (AbortWithError 404 err s1)
    | .ok blog =>
      let s2 : St :=
        { s1 with world := { s1.world with blogCache := s1.world.blogCache.Set filePath blog } }
      match ContentType s.url with
      | none => .error .panic
      | some contentType => .ok (Data 200 contentType blog.Html s2)

/-- The part of `GenMiddleWare` after `c.Next(); c.Abort()`: when the status is
`http.StatusOK` and the cache holds the path, write the snapshot; a write error panics. -/
def genSnapshot (env : Env) (url path : GoString) (s : St) : Result :=
  if s.status = 200 then
    let gen_path := env.GenPath url
    match s.world.blogCache.Get path with
    | none => .ok s
    | some blog =>
      let file := if blog.IsDir || blog.IsMd then env.TransformLinks blog.Html else blog.Html
      if env.MustWriteErr gen_path file then .error .panic
      else .ok { s with world := { s.world with files := s.world.files ++ [(gen_path, file)] } }
  else .ok s

/-- The handler `GenMiddleWare(blogCache, config)`. -/
def GenMiddleWare (env : Env) : HandlerFunc := fun next s =>
  if env.config.NOT_GEN then .ok s
  else
    match storagePath env s.url with
    | none => .error .panic
    | some path =>
      match next s with
      | .error e => .error e
      | .ok s1 => genSnapshot env s.url path (Abort s1)

/-- The chain `App.Run` mounts on the blog route group, in the order of its
`blog.Use` calls. -/
def blogHandlers (env : Env) : List HandlerFunc :=
  [PrivateMiddleWare env, BlogCacheMiddleware env, GenMiddleWare env, LoadBlogMiddleware env]

/-- One request for `url` through the blog chain, starting from the shared objects `w`. -/
def serveBlog (env : Env) (fuel : Nat) (url : GoString) (w : World) : Result :=
  Next (blogHandlers env) fuel (reset url w)

/-! ## The rate cascade -/

/-- The type `errors.HTTPError` of tollbooth. -/
structure HTTPError where
  Message : GoString
  StatusCode : Int
deriving DecidableEq, Repr

/-- The handler `LimitMiddleware(lmts...)`. The function `tollbooth.LimitByRequest` is a
parameter: from a limiter and the request it gives the error (`none` for `nil`) and the
limiter after the call. The second component of the result holds the limiters after the
handler has returned. -/
def LimitMiddleware {L R : Type} (LimitByRequest : L → R → Option HTTPError × L) (r : R) :
    List L → St → St × List L
  | [], s => (s, [])
  | lmt :: rest, s =>
    match LimitByRequest lmt r with
    | (some httpError, lmt1) =>
      (Abort (AbortWithStatusJSON httpError.StatusCode (.jsonError httpError.Message) s),
        lmt1 :: rest)
    | (none, lmt1) =>
      let res := LimitMiddleware LimitByRequest r rest s
      (res.1, lmt1 :: res.2)

/-! ## The searcher registry and the search handler -/

/-- The interface `pkg.Searcher`. -/
structure Searcher where
  Name : GoString
  Brief : GoString
  /-- The method `Search(keyword, num)`; `Except.error` carries `err.Error()`. -/
  Search : GoString → Int → Except GoString (List GoString)

/-- A value held by the registry, an `interface{}`: a `pkg.Searcher` or something else. -/
inductive Registered where
  | searcher (s : Searcher)
  | other

/-- The registry, a `sync.Map` with string keys: at most one value for a key. -/
abbrev SyncMap := List (GoString × Registered)

/-- The method `sync.Map.Load`. -/
def SyncMap.Load (m : SyncMap) (key : GoString) : Option Registered := m.lookup key

/-- The method `sync.Map.Delete`. -/
def SyncMap.Delete (m : SyncMap) (key : GoString) : SyncMap := m.filter (fun e => e.1 != key)

/-- The method `sync.Map.Store`. -/
def SyncMap.Store (m : SyncMap) (key : GoString) (value : Registered) : SyncMap :=
  (key, value) :: SyncMap.Delete m key

/-- The four `searchers.Store` calls of `NewApp` for the built-in strategies; the values
built by the `pkg` constructors are parameters. -/
def storeBuiltins (title content keyword bleve : Registered) : SyncMap :=
  SyncMap.Store (SyncMap.Store (SyncMap.Store (SyncMap.Store [] (str "title") title)
    (str "content") content) (str "keyword") keyword) (str "bleve") bleve

/-- The loop of `NewApp` over `config.SEARCH_PLUGINS`: a disabled plugin deletes its name,
any other stores the searcher `pkg.NewSearcherByPlugin` builds for it (a parameter). -/
def storePlugins (NewSearcherByPlugin : SearchPlugin → Registered) :
    SyncMap → List SearchPlugin → SyncMap
  | m, [] => m
  | m, plugin :: rest =>
    if plugin.Disable then storePlugins NewSearcherByPlugin (SyncMap.Delete m plugin.Name) rest
    else storePlugins NewSearcherByPlugin
      (SyncMap.Store m plugin.Name (NewSearcherByPlugin plugin)) rest

/-- The registry `NewApp` hands to the handlers. -/
def NewApp_searchers (title content keyword bleve : Registered)
    (NewSearcherByPlugin : SearchPlugin → Registered) (config : Config) : SyncMap :=
  storePlugins NewSearcherByPlugin (storeBuiltins title content keyword bleve)
    config.SEARCH_PLUGINS

/-- The URL query of a search request: `none` is a parameter that is not given. -/
structure Query where
  keyword : Option GoString
  num : Option GoString
  searchType : Option GoString
deriving DecidableEq, Repr

/-- The loop of `SearchMiddleWare` that turns file paths into links, appending to
`retResults`; `none` is the fault of the slice expression `path[len(config.BLOG_PATH):]`. -/
def convertPaths (env : Env) : List GoString → List GoString → Option (List GoString)
  | retResults, [] => some retResults
  | retResults, path :: rest =>
    if path = [] ∨ path.length < env.config.BLOG_PATH.length then convertPaths env retResults rest
    else
      match sliceFrom (ToSlash path) env.config.BLOG_PATH.length with
      | none => none
      | some tail =>
        convertPaths env
          (retResults ++ [env.SimplifyPath (env.config.BLOG_ROUTER ++ tail)]) rest

/-- The handler `SearchMiddleWare(searchers, cache, config)`. -/
def SearchMiddleWare (env : Env) (searchers : SyncMap) (q : Query) (s : St) : Result :=
  let keyword := q.keyword.getD []
  if keyword = [] then .ok (AbortWithStatusJSON 400 (.jsonError (str "keyword is empty")) s)
  else
    let parsed : Option Int :=
      match q.num with
      | none => some env.config.SEARCH_NUM
      | some n => Atoi n
    match parsed with
    | none => .ok (AbortWithStatusJSON 400 (.jsonError (str "num must be int")) s)
    | some num =>
      let searchType := if q.searchType.getD [] = [] then str "title" else q.searchType.getD []
      match SyncMap.Load searchers searchType with
      | none => .ok (AbortWithStatusJSON 400 (.jsonError (str "search type not found")) s)
      | some .other => .ok (AbortWithStatusJSON 500 (.jsonError (str "searcher type error")) s)
      | some (.searcher searcher) =>
        let s1 : St :=
          { s with world :=
              { s.world with searches := s.world.searches ++ [(searchType, keyword, num)] } }
        match searcher.Search keyword num with
        | .error err => .ok (AbortWithStatusJSON 500 (.jsonError err) s1)
        | .ok results =>
          match convertPaths env [] results with
          | none => .error .panic
          | some retResults => .ok (Render 200 (.jsonStrings retResults) s1)

/-! ## The cache invalidation consumer -/

/-- The body of the first goroutine of `NewApp` for one path read from `spider.FilesChanged()`. -/
def invalidate (env : Env) (blogCache : Cache) (path : GoString) : Cache :=
  let path := env.SimplifyPath path
  let blogCache := blogCache.Remove path
  let dir := env.Dir path
  blogCache.Remove dir

/-- The goroutine on a finite run of change events, in arrival order. -/
def invalidateAll (env : Env) (blogCache : Cache) (changed : List GoString) : Cache :=
  changed.foldl (invalidate env) blogCache

/-! ## A concrete site, for evaluating the definitions -/

/-- The directory part of a clean relative path: what `filepath.Dir` returns for it. -/
def demoDir (path : GoString) : GoString :=
  let d := ((path.reverse.dropWhile (fun c => c != slash)).drop 1).reverse
  if d = [] then str "." else d

/-- A configuration in the shape of the files `yb -n` creates: content under `blog`,
served under `/blog`, snapshots enabled. -/
def demoConfig : Config :=
  { BLOG_PATH := str "blog", BLOG_ROUTER := str "/blog", NOT_GEN := false, SEARCH_NUM := 10,
    SEARCH_PLUGINS := [] }

/-- A site whose hide set holds `blog/hide.md`, whose private set holds `blog/private.md`,
and whose loader renders every path but `blog/missing.md`. The paths it is used on are
already simplified, so `SimplifyPath` leaves them as they are. -/
def demoEnv : Env :=
  { config := demoConfig
    SimplifyPath := fun p => p
    Dir := demoDir
    hide := fun p => p == str "blog/hide.md"
    priv := fun p => p == str "blog/private.md"
    LoadBlog := fun p =>
      if p = str "blog/missing.md" then .error (str "no such file")
      else .ok { Html := str "<h1>" ++ p ++ str "</h1>", IsDir := false, IsMd := true }
    GenPath := fun url => str "docs" ++ url ++ str ".html"
    TransformLinks := fun file => file
    MustWriteErr := fun _ _ => false }

/-- The shared objects at start-up: nothing cached, written, loaded or searched. -/
def emptyWorld : World := { blogCache := ⟨[]⟩, files := [], loads := [], searches := [] }

/-- A limiter reduced to the number of requests it still admits: it denies at zero, with
the status code and message `tollbooth.NewLimiter` sets. -/
def demoLimit (tokens : Nat) (_r : Unit) : Option HTTPError × Nat :=
  if tokens = 0 then
    (some { Message := str "You have reached maximum request limit.", StatusCode := 429 }, 0)
  else (none, tokens - 1)

/-- A strategy that finds nothing. -/
def demoSearcher (name : GoString) : Registered :=
  .searcher { Name := name, Brief := [], Search := fun _ _ => .ok [] }

/-- A strategy that returns three raw paths, one of them shorter than the content root. -/
def demoFinder : Searcher :=
  { Name := str "title", Brief := []
    Search := fun _ _ => .ok [str "blog/intro.md", str "x", str "blog/keyword.md"] }

/-- The registry `NewApp` builds for `config`, with stand-in strategies. -/
def demoRegistry (config : Config) : SyncMap :=
  NewApp_searchers (demoSearcher (str "title")) (demoSearcher (str "content"))
    (demoSearcher (str "keyword")) (demoSearcher (str "bleve"))
    (fun plugin => demoSearcher plugin.Name) config

/-! # Theorems -/

/-! ## Content types -/

theorem hasSuffix_iff (s suffix : GoString) : HasSuffix s suffix = true ↔ suffix <:+ s := by
  unfold HasSuffix
  constructor
  · intro h
    simp only [Bool.and_eq_true, decide_eq_true_eq, beq_iff_eq] at h
    exact h.2 ▸ List.drop_suffix _ _
  · rintro ⟨p, rfl⟩
    simp

theorem extLoop_skip (path : GoString) (n : Nat) :
    ∀ k : Nat, (∀ j, n ≤ j → j < n + k → ∃ c, path[j]? = some c ∧ c ≠ slash ∧ c ≠ dot) →
      extLoop path (n + k) = extLoop path n := by
  intro k
  induction k with
  | zero => intro _; rfl
  | succ k ih =>
    intro h
    obtain ⟨c, hc, h1, h2⟩ := h (n + k) (by omega) (by omega)
    have : extLoop path (n + (k + 1)) = extLoop path (n + k) := by
      show extLoop path ((n + k) + 1) = _
      simp [extLoop, hc, h1, h2]
    rw [this]
    exact ih (fun j hj1 hj2 => h j hj1 (by omega))

theorem ext_append_dot (p t : GoString) (ht : ∀ c ∈ t, c ≠ slash ∧ c ≠ dot) :
    Ext (p ++ dot :: t) = dot :: t := by
  unfold Ext
  have hlen : (p ++ dot :: t).length = (p.length + 1) + t.length := by simp; omega
  rw [hlen, extLoop_skip]
  · have h0 : (p ++ dot :: t)[p.length]? = some dot := by
      rw [List.getElem?_append_right (le_refl _)]; simp
    have hd : dot ≠ slash := by decide
    simp only [extLoop, h0, hd, if_false, if_true]
    simp
  · intro j hj1 hj2
    have hj : j - p.length - 1 < t.length := by omega
    refine ⟨t[j - p.length - 1], ?_, ht _ (List.getElem_mem _)⟩
    rw [List.getElem?_append_right (by omega)]
    obtain ⟨i, hi⟩ : ∃ i, j - p.length = i + 1 := ⟨j - p.length - 1, by omega⟩
    have hi2 : j - p.length - 1 = i := by omega
    simp only [hi, hi2, List.getElem?_cons_succ]
    subst hi2
    exact List.getElem?_eq_getElem hj

theorem contentType_image (p ext : GoString)
    (hext : ext = str "png" ∨ ext = str "jpg" ∨ ext = str "jpeg") :
    ContentType (p ++ dot :: ext) = some (str "image/" ++ ext) := by
  have hno : ∀ c ∈ ext, c ≠ slash ∧ c ≠ dot := by
    rcases hext with h | h | h <;> subst h <;> decide
  have hsuf : (HasSuffix (p ++ dot :: ext) (str ".png") || HasSuffix (p ++ dot :: ext) (str ".jpg")
      || HasSuffix (p ++ dot :: ext) (str ".jpeg")) = true := by
    rcases hext with h | h | h <;> subst h
    · have : HasSuffix (p ++ dot :: str "png") (str ".png") = true :=
        (hasSuffix_iff _ _).2 ⟨p, rfl⟩
      simp [this]
    · have : HasSuffix (p ++ dot :: str "jpg") (str ".jpg") = true :=
        (hasSuffix_iff _ _).2 ⟨p, rfl⟩
      simp [this]
    · have : HasSuffix (p ++ dot :: str "jpeg") (str ".jpeg") = true :=
        (hasSuffix_iff _ _).2 ⟨p, rfl⟩
      simp [this]
  unfold ContentType
  rw [if_pos hsuf, ext_append_dot p ext hno]
  simp [sliceFrom]

theorem css_not_image (url : GoString) (h : str ".css" <:+ url) :
    (HasSuffix url (str ".png") || HasSuffix url (str ".jpg") || HasSuffix url (str ".jpeg")) = false := by
  have h1 : ¬ str ".png" <:+ url := fun h' =>
    absurd (List.suffix_of_suffix_length_le h' h (by decide)) (by decide)
  have h2 : ¬ str ".jpg" <:+ url := fun h' =>
    absurd (List.suffix_of_suffix_length_le h' h (by decide)) (by decide)
  have h3 : ¬ str ".jpeg" <:+ url := fun h' =>
    absurd (List.suffix_of_suffix_length_le h h' (by decide)) (by decide)
  rw [← hasSuffix_iff] at h1 h2 h3
  simp [h1, h2, h3]

theorem contentType_image_suffix (url ext : GoString)
    (hmem : ext ∈ [str "png", str "jpg", str "jpeg"]) (hsuf : (dot :: ext) <:+ url) :
    sliceFrom (Ext url) 1 = some ext ∧ ContentType url = some (str "image/" ++ ext) := by
  obtain ⟨p, rfl⟩ := hsuf
  have hext : ext = str "png" ∨ ext = str "jpg" ∨ ext = str "jpeg" := by simpa using hmem
  have hno : ∀ c ∈ ext, c ≠ slash ∧ c ≠ dot := by
    rcases hext with h | h | h <;> subst h <;> decide
  exact ⟨by rw [ext_append_dot p ext hno]; simp [sliceFrom], contentType_image p ext hext⟩

theorem contentType_css (url : GoString) (h : str ".css" <:+ url) :
    ContentType url = some (str "text/css; charset=utf-8") := by
  unfold ContentType
  rw [css_not_image url h, (hasSuffix_iff _ _).2 h]
  rfl

theorem contentType_html (url : GoString) (h1 : ¬ str ".png" <:+ url)
    (h2 : ¬ str ".jpg" <:+ url) (h3 : ¬ str ".jpeg" <:+ url) (h4 : ¬ str ".css" <:+ url) :
    ContentType url = some (str "text/html; charset=utf-8") := by
  rw [← hasSuffix_iff] at h1 h2 h3 h4
  simp [ContentType, h1, h2, h3, h4]

theorem contentType_isSome (url : GoString) : (ContentType url).isSome = true := by
  by_cases h1 : str ".png" <:+ url
  · rw [(contentType_image_suffix url (str "png") (by decide) h1).2]; rfl
  by_cases h2 : str ".jpg" <:+ url
  · rw [(contentType_image_suffix url (str "jpg") (by decide) h2).2]; rfl
  by_cases h3 : str ".jpeg" <:+ url
  · rw [(contentType_image_suffix url (str "jpeg") (by decide) h3).2]; rfl
  by_cases h4 : str ".css" <:+ url
  · rw [contentType_css url h4]; rfl
  rw [contentType_html url h1 h2 h3 h4]; rfl

theorem contentType_total (url : GoString) : ∃ ct, ContentType url = some ct :=
  Option.isSome_iff_exists.1 (contentType_isSome url)

/-- C8 (amended): `ContentType(url)` is `image/<ext>` when `url` ends in `.png`, `.jpg` or
`.jpeg`, the slice `filepath.Ext(url)[1:]` being that suffix without its dot;
`text/css; charset=utf-8` when `url` ends in `.css`; `text/html; charset=utf-8` for every
other `url`; and it never faults. -/
theorem ContentType_derivation (url : GoString) :
    (∀ ext, ext ∈ [str "png", str "jpg", str "jpeg"] → (dot :: ext) <:+ url →
      sliceFrom (Ext url) 1 = some ext ∧ ContentType url = some (str "image/" ++ ext)) ∧
    (str ".css" <:+ url → ContentType url = some (str "text/css; charset=utf-8")) ∧
    (¬ str ".png" <:+ url → ¬ str ".jpg" <:+ url → ¬ str ".jpeg" <:+ url → ¬ str ".css" <:+ url →
      ContentType url = some (str "text/html; charset=utf-8")) ∧
    (ContentType url).isSome = true :=
  ⟨contentType_image_suffix url, contentType_css url, contentType_html url,
   contentType_isSome url⟩

theorem ContentType_derivation_witness :
    ContentType (str "img/logo.jpeg") = some (str "image/jpeg") ∧
    ContentType (str "site.css") = some (str "text/css; charset=utf-8") ∧
    ContentType (str "intro.md") = some (str "text/html; charset=utf-8") :=
  ⟨((ContentType_derivation (str "img/logo.jpeg")).1 (str "jpeg") (by decide) (by decide)).2,
   (ContentType_derivation (str "site.css")).2.1 (by decide),
   (ContentType_derivation (str "intro.md")).2.2.1 (by decide) (by decide) (by decide) (by decide)⟩

/-- C8 as stated fails on the two text types: the value for a stylesheet is not the bare
`text/css`, and the default is not the bare `text/html`; both carry `; charset=utf-8`. -/
theorem ContentType_text_types_carry_charset :
    str ".css" <:+ str "site.css" ∧
    ContentType (str "site.css") = some (str "text/css; charset=utf-8") ∧
    ContentType (str "site.css") ≠ some (str "text/css") ∧
    ContentType (str "intro.md") = some (str "text/html; charset=utf-8") ∧
    ContentType (str "intro.md") ≠ some (str "text/html") := by
  decide

/-! ## The cache primitive and the invalidation consumer -/

theorem lookup_cons_eq {α : Type} (k a : GoString) (b : α) (l : List (GoString × α)) :
    List.lookup k ((a, b) :: l) = if k = a then some b else List.lookup k l := by
  by_cases h : k = a
  · simp [List.lookup, h]
  · have : (k == a) = false := by simpa using h
    simp [List.lookup, h, this]

theorem lookup_filter_self {α : Type} (l : List (GoString × α)) (key : GoString) :
    (l.filter (fun e => e.1 != key)).lookup key = none := by
  induction l with
  | nil => rfl
  | cons e l ih =>
    obtain ⟨a, b⟩ := e
    by_cases h : a = key
    · rw [List.filter_cons_of_neg (by simp [h])]
      exact ih
    · rw [List.filter_cons_of_pos (by simpa using h), lookup_cons_eq, if_neg (Ne.symm h)]
      exact ih

theorem lookup_filter_other {α : Type} (l : List (GoString × α)) (key k : GoString) (hk : k ≠ key) :
    (l.filter (fun e => e.1 != key)).lookup k = l.lookup k := by
  induction l with
  | nil => rfl
  | cons e l ih =>
    obtain ⟨a, b⟩ := e
    by_cases h : a = key
    · rw [List.filter_cons_of_neg (by simp [h]), lookup_cons_eq, if_neg (by rw [h]; exact hk)]
      exact ih
    · rw [List.filter_cons_of_pos (by simpa using h), lookup_cons_eq, lookup_cons_eq, ih]

theorem cache_get_remove (c : Cache) (key : GoString) : (c.Remove key).Get key = none :=
  lookup_filter_self c.entries key

theorem cache_get_remove_other (c : Cache) (key k : GoString) (hk : k ≠ key) :
    (c.Remove key).Get k = c.Get k :=
  lookup_filter_other c.entries key k hk

theorem cache_get_set_other (c : Cache) (key k : GoString) (v : BlogItem) (hk : k ≠ key) :
    (c.Set key v).Get k = c.Get k := by
  show List.lookup k ((key, v) :: (c.Remove key).entries) = _
  rw [lookup_cons_eq, if_neg hk]
  exact lookup_filter_other c.entries key k hk

theorem cache_remove_miss (c : Cache) (key k : GoString) (h : c.Get k = none) :
    (c.Remove key).Get k = none := by
  by_cases hk : k = key
  · rw [hk]; exact cache_get_remove c key
  · rw [cache_get_remove_other c key k hk]; exact h

/-- C3: once the invalidation consumer has processed a change event for `P`, the cache
misses on `SimplifyPath(P)` and on `filepath.Dir(SimplifyPath(P))`, and every other key
answers as it did before. -/
theorem invalidate_removes_path_and_dir (env : Env) (blogCache : Cache) (P : GoString) :
    (invalidate env blogCache P).Get (env.SimplifyPath P) = none ∧
    (invalidate env blogCache P).Get (env.Dir (env.SimplifyPath P)) = none ∧
    (∀ k, k ≠ env.SimplifyPath P → k ≠ env.Dir (env.SimplifyPath P) →
      (invalidate env blogCache P).Get k = blogCache.Get k) ∧
    (invalidate env blogCache P).entries =
      blogCache.entries.filter
        (fun e => e.1 != env.SimplifyPath P && e.1 != env.Dir (env.SimplifyPath P)) := by
  refine ⟨?_, ?_, ?_, ?_⟩
  · exact cache_remove_miss _ _ _ (cache_get_remove _ _)
  · exact cache_get_remove _ _
  · intro k h1 h2
    show ((blogCache.Remove _).Remove _).Get k = _
    rw [cache_get_remove_other _ _ _ h2, cache_get_remove_other _ _ _ h1]
  · simp [invalidate, Cache.Remove, List.filter_filter, Bool.and_comm]

theorem invalidate_removes_path_and_dir_witness :
    (invalidate demoEnv
        ⟨[(str "blog/intro.md", ⟨str "a", false, true⟩), (str "blog", ⟨str "b", true, false⟩),
          (str "blog/other.md", ⟨str "c", false, true⟩)]⟩ (str "blog/intro.md")).Get
      (str "blog/other.md") = some ⟨str "c", false, true⟩ := by
  rw [(invalidate_removes_path_and_dir demoEnv _ (str "blog/intro.md")).2.2.1 (str "blog/other.md")
    (by decide) (by decide)]
  decide

/-! ## The handler chain -/

theorem runHandlers_aborted (hs : List HandlerFunc) (fuel : Nat) (s : St)
    (h : (hs.length : Int) ≤ s.index) : runHandlers hs (fuel + 1) s = .ok s := by
  have h0 : ¬ s.index < 0 := by omega
  have h1 : hs[s.index.toNat]? = none := List.getElem?_eq_none (by omega)
  simp [runHandlers, h0, h1]

theorem runHandlers_at (hs : List HandlerFunc) (fuel : Nat) (s : St) (i : Nat) (h : HandlerFunc)
    (hi : s.index = i) (hh : hs[i]? = some h) :
    runHandlers hs (fuel + 1) s =
      match h (fun c => runHandlers hs fuel { c with index := c.index + 1 }) s with
      | .error e => .error e
      | .ok s1 => runHandlers hs fuel { s1 with index := s1.index + 1 } := by
  have h0 : ¬ s.index < 0 := by omega
  have h1 : hs[s.index.toNat]? = some h := by rw [hi]; simpa using hh
  simp [runHandlers, h0, h1]

theorem next_private_aborts (env : Env) (fuel : Nat) (url path : GoString) (w : World)
    (rest : List HandlerFunc) (hrest : rest.length < 63)
    (hpath : storagePath env url = some path) (hpriv : PathMatch path [env.priv] = true) :
    Next (PrivateMiddleWare env :: rest) (fuel + 2) (reset url w) =
      .ok { reset url w with index := abortIndex + 1, status := 404, written := true } := by
  unfold Next
  rw [runHandlers_at _ _ _ 0 (PrivateMiddleWare env) (by simp [reset]) (by simp)]
  simp [PrivateMiddleWare, reset, hpath, hpriv, AbortWithStatus, Abort, WriteHeaderNow, Status,
    abortIndex]
  rw [runHandlers_aborted _ _ _ (by simp; omega)]

theorem serveBlog_private (env : Env) (fuel : Nat) (url path : GoString) (w : World)
    (hpath : storagePath env url = some path) (hpriv : PathMatch path [env.priv] = true) :
    serveBlog env (fuel + 2) url w =
      .ok { url := url, index := abortIndex + 1, status := 404, written := true, out := [],
            errors := [], world := w } :=
  next_private_aborts env fuel url path w
    [BlogCacheMiddleware env, GenMiddleWare env, LoadBlogMiddleware env] (by simp) hpath hpriv

theorem serveBlog_fault (env : Env) (fuel : Nat) (url : GoString) (w : World)
    (hpath : storagePath env url = none) :
    serveBlog env (fuel + 1) url w = .error .panic := by
  unfold serveBlog Next
  rw [runHandlers_at _ _ _ 0 (PrivateMiddleWare env) (by simp [reset]) (by simp [blogHandlers])]
  simp [PrivateMiddleWare, reset, hpath]

/-- C1: a request under the blog route whose storage path matches the private set ends the
chain at the privacy stage with status 404, whatever stages follow it: nothing is rendered,
and the shared objects (cache, snapshot files, loader calls) are those the request started
from. -/
theorem private_path_is_not_found (env : Env) (fuel : Nat) (url path : GoString) (w : World)
    (hpath : storagePath env url = some path) (hpriv : PathMatch path [env.priv] = true) :
    (∀ rest : List HandlerFunc, rest.length < 63 →
      Next (PrivateMiddleWare env :: rest) (fuel + 2) (reset url w) =
        .ok { reset url w with index := abortIndex + 1, status := 404, written := true }) ∧
    serveBlog env (fuel + 2) url w =
      .ok { url := url, index := abortIndex + 1, status := 404, written := true, out := [],
            errors := [], world := w } :=
  ⟨fun rest hrest => next_private_aborts env fuel url path w rest hrest hpath hpriv,
   serveBlog_private env fuel url path w hpath hpriv⟩

theorem private_path_is_not_found_witness :
    serveBlog demoEnv 2 (str "/blog/private.md") emptyWorld =
      .ok { url := str "/blog/private.md", index := abortIndex + 1, status := 404,
            written := true, out := [], errors := [], world := emptyWorld } :=
  (private_path_is_not_found demoEnv 0 (str "/blog/private.md") (str "blog/private.md")
    emptyWorld (by decide) (by decide)).2

theorem cache_get_set (c : Cache) (key : GoString) (v : BlogItem) :
    (c.Set key v).Get key = some v := by
  simp [Cache.Set, Cache.Get, List.lookup]


/-- The privacy stage lets a path outside the private set through, and the cache stage
answers a cached path: status 200, the cached bytes, nothing else touched. -/
theorem serveBlog_hit (env : Env) (fuel : Nat) (url path ct : GoString) (w : World)
    (blog : BlogItem) (hpath : storagePath env url = some path)
    (hpriv : PathMatch path [env.priv] = false) (hct : ContentType path = some ct)
    (hget : w.blogCache.Get path = some blog) :
    serveBlog env (fuel + 3) url w =
      .ok { reset url w with index := abortIndex + 1, status := 200, written := true,
                             out := [.data ct blog.Html] } := by
  unfold serveBlog Next
  rw [runHandlers_at _ _ _ 0 (PrivateMiddleWare env) (by simp [reset]) (by simp [blogHandlers])]
  simp only [PrivateMiddleWare, reset, hpath, hpriv, Bool.false_eq_true, if_false]
  rw [runHandlers_at _ _ _ 1 (BlogCacheMiddleware env) (by simp) (by simp [blogHandlers])]
  simp only [BlogCacheMiddleware, hpath, hct, hget]
  rw [runHandlers_aborted]
  · simp [Abort, Data, Render, Status, bodyAllowedForStatus, abortIndex]
  · simp [Abort, Data, Render, Status, bodyAllowedForStatus, abortIndex, blogHandlers]

/-- A miss with generation disabled: the generation stage returns at once and the load
stage runs. -/
theorem serveBlog_miss_notgen (env : Env) (fuel : Nat) (url path : GoString) (w : World)
    (hpath : storagePath env url = some path) (hpriv : PathMatch path [env.priv] = false)
    (hget : w.blogCache.Get path = none) (hgen : env.config.NOT_GEN = true) :
    serveBlog env (fuel + 5) url w =
      match env.LoadBlog path with
      | .error err =>
        .ok { reset url w with index := abortIndex + 1, status := 404, written := true,
                               errors := [err],
                               world := { w with loads := w.loads ++ [path] } }
      | .ok blog =>
        .ok { reset url w with index := 4, status := 200, written := true,
                               out := [.data ((ContentType url).getD []) blog.Html],
                               world := { w with loads := w.loads ++ [path],
                                                 blogCache := w.blogCache.Set path blog } } := by
  obtain ⟨ctp, hctp⟩ := contentType_total path
  obtain ⟨ct, hct⟩ := contentType_total url
  unfold serveBlog Next
  rw [runHandlers_at _ _ _ 0 (PrivateMiddleWare env) (by simp [reset]) (by simp [blogHandlers])]
  simp only [PrivateMiddleWare, reset, hpath, hpriv, Bool.false_eq_true, if_false]
  rw [runHandlers_at _ _ _ 1 (BlogCacheMiddleware env) (by simp) (by simp [blogHandlers])]
  simp only [BlogCacheMiddleware, hpath, hctp, hget]
  rw [runHandlers_at _ _ _ 2 (GenMiddleWare env) (by simp) (by simp [blogHandlers])]
  simp only [GenMiddleWare, hgen, if_true]
  rw [runHandlers_at _ _ _ 3 (LoadBlogMiddleware env) (by simp) (by simp [blogHandlers])]
  simp only [LoadBlogMiddleware, Url2Path, hpath, hct]
  cases hload : env.LoadBlog path with
  | error err =>
    simp only []
    rw [runHandlers_aborted]
    · simp [AbortWithError, AbortWithStatus, Abort, WriteHeaderNow, Status, abortIndex]
    · simp [AbortWithError, AbortWithStatus, Abort, WriteHeaderNow, Status, abortIndex,
        blogHandlers]
  | ok blog =>
    simp only []
    rw [runHandlers_aborted]
    · simp [Data, Render, Status, bodyAllowedForStatus]
    · simp [Data, Render, Status, bodyAllowedForStatus, blogHandlers]

/-- A miss with generation enabled: the generation stage runs the load stage itself, aborts
the chain, and writes the snapshot when the load stage answered 200. -/
theorem serveBlog_miss_gen (env : Env) (fuel : Nat) (url path : GoString) (w : World)
    (hpath : storagePath env url = some path) (hpriv : PathMatch path [env.priv] = false)
    (hget : w.blogCache.Get path = none) (hgen : env.config.NOT_GEN = false) :
    serveBlog env (fuel + 5) url w =
      match env.LoadBlog path with
      | .error err =>
        .ok { reset url w with index := abortIndex + 1, status := 404, written := true,
                               errors := [err],
                               world := { w with loads := w.loads ++ [path] } }
      | .ok blog =>
        if env.MustWriteErr (env.GenPath url)
            (if blog.IsDir || blog.IsMd then env.TransformLinks blog.Html else blog.Html) then
          .error .panic
        else
          .ok { reset url w with
                  index := abortIndex + 1, status := 200, written := true,
                  out := [.data ((ContentType url).getD []) blog.Html],
                  world :=
                    { w with
                        loads := w.loads ++ [path],
                        blogCache := w.blogCache.Set path blog,
                        files := w.files ++ [(env.GenPath url,
                          if blog.IsDir || blog.IsMd then env.TransformLinks blog.Html
                          else blog.Html)] } } := by
  obtain ⟨ctp, hctp⟩ := contentType_total path
  obtain ⟨ct, hct⟩ := contentType_total url
  unfold serveBlog Next
  rw [runHandlers_at _ _ _ 0 (PrivateMiddleWare env) (by simp [reset]) (by simp [blogHandlers])]
  simp only [PrivateMiddleWare, reset, hpath, hpriv, Bool.false_eq_true, if_false]
  rw [runHandlers_at _ _ _ 1 (BlogCacheMiddleware env) (by simp) (by simp [blogHandlers])]
  simp only [BlogCacheMiddleware, hpath, hctp, hget]
  rw [runHandlers_at _ _ _ 2 (GenMiddleWare env) (by simp) (by simp [blogHandlers])]
  simp only [GenMiddleWare, hgen, hpath, Bool.false_eq_true, if_false]
  rw [runHandlers_at _ _ _ 3 (LoadBlogMiddleware env) (by simp) (by simp [blogHandlers])]
  simp only [LoadBlogMiddleware, Url2Path, hpath, hct]
  cases hload : env.LoadBlog path with
  | error err =>
    simp [AbortWithError, AbortWithStatus, Abort, WriteHeaderNow, Status, abortIndex]
    rw [runHandlers_aborted _ _ _ (by simp [blogHandlers])]
    simp [genSnapshot]
    rw [runHandlers_aborted _ _ _ (by simp [blogHandlers])]
  | ok blog =>
    simp [Abort, Data, Render, Status, bodyAllowedForStatus, abortIndex]
    rw [runHandlers_aborted _ _ _ (by simp [blogHandlers])]
    simp [genSnapshot, cache_get_set]
    by_cases hw : env.MustWriteErr (env.GenPath url)
        (if blog.IsDir = true ∨ blog.IsMd = true then env.TransformLinks blog.Html
         else blog.Html) = true
    · simp [hw]
    · simp [hw]
      rw [runHandlers_aborted _ _ _ (by simp [blogHandlers])]

/-! ## What one request does to the shared objects -/

/-- Every way a request through the blog chain can return, with five or more handler
calls allowed. -/
theorem serveBlog_outcome (env : Env) (fuel : Nat) (url : GoString) (w : World) (s : St)
    (hrun : serveBlog env (fuel + 5) url w = .ok s) :
    ∃ path, storagePath env url = some path ∧
      ((PathMatch path [env.priv] = true ∧ s.status = 404 ∧ s.out = [] ∧ s.world = w ∧
          s.index = abortIndex + 1) ∨
       (PathMatch path [env.priv] = false ∧ ∃ blog ct, w.blogCache.Get path = some blog ∧
          s.status = 200 ∧ s.out = [.data ct blog.Html] ∧ s.world = w ∧
          s.index = abortIndex + 1) ∨
       (PathMatch path [env.priv] = false ∧ w.blogCache.Get path = none ∧
          ∃ err, env.LoadBlog path = .error err ∧ s.status = 404 ∧ s.out = [] ∧
            s.world = { w with loads := w.loads ++ [path] } ∧ s.index = abortIndex + 1) ∨
       (PathMatch path [env.priv] = false ∧ w.blogCache.Get path = none ∧
          ∃ blog ct, env.LoadBlog path = .ok blog ∧ s.status = 200 ∧
            s.out = [.data ct blog.Html] ∧
            ((env.config.NOT_GEN = true ∧ s.index = 4 ∧
                s.world = { w with loads := w.loads ++ [path],
                                   blogCache := w.blogCache.Set path blog }) ∨
             (env.config.NOT_GEN = false ∧ s.index = abortIndex + 1 ∧
                s.world = { w with loads := w.loads ++ [path],
                                   blogCache := w.blogCache.Set path blog,
                                   files := w.files ++ [(env.GenPath url,
                                     if blog.IsDir || blog.IsMd then env.TransformLinks blog.Html
                                     else blog.Html)] })))) := by
  cases hpath : storagePath env url with
  | none =>
    rw [serveBlog_fault env (fuel + 4) url w hpath] at hrun
    cases hrun
  | some path =>
    refine ⟨path, rfl, ?_⟩
    cases hpriv : PathMatch path [env.priv] with
    | true =>
      rw [serveBlog_private env (fuel + 3) url path w hpath hpriv] at hrun
      injection hrun with hrun
      subst hrun
      exact Or.inl ⟨rfl, rfl, rfl, rfl, rfl⟩
    | false =>
      cases hget : w.blogCache.Get path with
      | some blog =>
        obtain ⟨ctp, hctp⟩ := contentType_total path
        rw [serveBlog_hit env (fuel + 2) url path ctp w blog hpath hpriv hctp hget] at hrun
        injection hrun with hrun
        subst hrun
        exact Or.inr (Or.inl ⟨rfl, blog, ctp, rfl, rfl, rfl, rfl, rfl⟩)
      | none =>
        cases hgen : env.config.NOT_GEN with
        | true =>
          rw [serveBlog_miss_notgen env fuel url path w hpath hpriv hget hgen] at hrun
          cases hload : env.LoadBlog path with
          | error err =>
            rw [hload] at hrun
            injection hrun with hrun
            subst hrun
            exact Or.inr (Or.inr (Or.inl ⟨rfl, rfl, err, rfl, rfl, rfl, rfl, rfl⟩))
          | ok blog =>
            rw [hload] at hrun
            injection hrun with hrun
            subst hrun
            exact Or.inr (Or.inr (Or.inr ⟨rfl, rfl, blog, _, rfl, rfl, rfl,
              Or.inl ⟨rfl, rfl, rfl⟩⟩))
        | false =>
          rw [serveBlog_miss_gen env fuel url path w hpath hpriv hget hgen] at hrun
          cases hload : env.LoadBlog path with
          | error err =>
            rw [hload] at hrun
            injection hrun with hrun
            subst hrun
            exact Or.inr (Or.inr (Or.inl ⟨rfl, rfl, err, rfl, rfl, rfl, rfl, rfl⟩))
          | ok blog =>
            rw [hload] at hrun
            simp only at hrun
            by_cases hw : env.MustWriteErr (env.GenPath url)
                (if blog.IsDir || blog.IsMd then env.TransformLinks blog.Html
                 else blog.Html) = true
            · rw [if_pos hw] at hrun
              cases hrun
            · rw [if_neg hw] at hrun
              injection hrun with hrun
              subst hrun
              exact Or.inr (Or.inr (Or.inr ⟨rfl, rfl, blog, _, rfl, rfl, rfl,
                Or.inr ⟨rfl, rfl, rfl⟩⟩))

/-- With five or more handler calls allowed the chain is never cut short by the bound. -/
theorem serveBlog_total (env : Env) (fuel : Nat) (url : GoString) (w : World) :
    serveBlog env (fuel + 5) url w ≠ .error .outOfFuel := by
  cases hpath : storagePath env url with
  | none =>
    rw [serveBlog_fault env (fuel + 4) url w hpath]
    intro h
    injection h with h
    cases h
  | some path =>
    cases hpriv : PathMatch path [env.priv] with
    | true =>
      rw [serveBlog_private env (fuel + 3) url path w hpath hpriv]; simp
    | false =>
      cases hget : w.blogCache.Get path with
      | some blog =>
        obtain ⟨ctp, hctp⟩ := contentType_total path
        rw [serveBlog_hit env (fuel + 2) url path ctp w blog hpath hpriv hctp hget]; simp
      | none =>
        cases hgen : env.config.NOT_GEN with
        | true =>
          rw [serveBlog_miss_notgen env fuel url path w hpath hpriv hget hgen]
          cases env.LoadBlog path <;> simp
        | false =>
          rw [serveBlog_miss_gen env fuel url path w hpath hpriv hget hgen]
          cases env.LoadBlog path with
          | error err => simp
          | ok blog =>
            simp only []
            by_cases hw : env.MustWriteErr (env.GenPath url)
                (if blog.IsDir || blog.IsMd then env.TransformLinks blog.Html
                 else blog.Html) = true
            · rw [if_pos hw]
              intro h
              injection h with h
              cases h
            · rw [if_neg hw]
              simp

/-! ## Privacy precedence, snapshots, and the load-then-hit round trip -/

/-- C2 as stated fails for the hide set: a path of the hide set that is not in the private
set is loaded, stored in the cache and written as a snapshot. -/
theorem hide_path_is_cached_and_generated :
    PathMatch (str "blog/hide.md") [demoEnv.hide] = true ∧
    PathMatch (str "blog/hide.md") [demoEnv.priv] = false ∧
    storagePath demoEnv (str "/blog/hide.md") = some (str "blog/hide.md") ∧
    (serveBlog demoEnv 5 (str "/blog/hide.md") emptyWorld).toOption.map
        (fun s => (s.status, s.world.blogCache, s.world.files)) =
      some (200,
        ⟨[(str "blog/hide.md", ⟨str "<h1>blog/hide.md</h1>", false, true⟩)]⟩,
        [(str "docs/blog/hide.md.html", str "<h1>blog/hide.md</h1>")]) := by
  decide

/-- C2 (amended): privacy precedence covers the private set. A request whose storage path
matches the private set is answered 404 and leaves the cache and the snapshot files as they
were; and whatever the request, no cache key that matches the private set changes its
answer, and a snapshot is written only for a storage path outside the private set. -/
theorem private_path_never_populated (env : Env) (fuel : Nat) (url : GoString) (w : World) :
    (∀ path, storagePath env url = some path → PathMatch path [env.priv] = true →
      ∃ s, serveBlog env (fuel + 5) url w = .ok s ∧ s.status = 404 ∧
        s.world.blogCache = w.blogCache ∧ s.world.files = w.files) ∧
    (∀ s, serveBlog env (fuel + 5) url w = .ok s →
      (∀ P, PathMatch P [env.priv] = true → s.world.blogCache.Get P = w.blogCache.Get P) ∧
      (s.world.files ≠ w.files →
        ∃ path, storagePath env url = some path ∧ PathMatch path [env.priv] = false)) := by
  constructor
  · intro path hpath hpriv
    exact ⟨_, serveBlog_private env (fuel + 3) url path w hpath hpriv, rfl, rfl, rfl⟩
  · intro s hrun
    obtain ⟨path, hpath, hcase⟩ := serveBlog_outcome env fuel url w s hrun
    rcases hcase with ⟨_, _, _, hw, _⟩ | ⟨_, _, _, _, _, _, hw, _⟩ |
      ⟨_, _, _, _, _, _, hw, _⟩ | ⟨hpriv, _, blog, _, _, _, _, hw⟩
    · rw [hw]; exact ⟨fun _ _ => rfl, fun h => absurd rfl h⟩
    · rw [hw]; exact ⟨fun _ _ => rfl, fun h => absurd rfl h⟩
    · rw [hw]; exact ⟨fun _ _ => rfl, fun h => absurd rfl h⟩
    · have hne : ∀ P, PathMatch P [env.priv] = true → P ≠ path := by
        intro P hP hPp
        rw [hPp, hpriv] at hP
        cases hP
      rcases hw with ⟨_, _, hw⟩ | ⟨_, _, hw⟩
      · rw [hw]
        exact ⟨fun P hP => cache_get_set_other _ _ _ _ (hne P hP), fun _ => ⟨path, hpath, hpriv⟩⟩
      · rw [hw]
        exact ⟨fun P hP => cache_get_set_other _ _ _ _ (hne P hP), fun _ => ⟨path, hpath, hpriv⟩⟩

theorem private_path_never_populated_witness :
    ∃ s, serveBlog demoEnv 5 (str "/blog/private.md") emptyWorld = .ok s ∧ s.status = 404 ∧
      s.world.blogCache = emptyWorld.blogCache ∧ s.world.files = emptyWorld.files :=
  (private_path_never_populated demoEnv 0 (str "/blog/private.md") emptyWorld).1
    (str "blog/private.md") (by decide) (by decide)

theorem genSnapshot_index (env : Env) (url path : GoString) (s r : St)
    (h : genSnapshot env url path s = .ok r) : r.index = s.index := by
  unfold genSnapshot at h
  by_cases hs : s.status = 200
  · rw [if_pos hs] at h
    cases hget : s.world.blogCache.Get path with
    | none =>
      rw [hget] at h
      injection h with h
      rw [← h]
    | some blog =>
      rw [hget] at h
      simp only at h
      by_cases hw : env.MustWriteErr (env.GenPath url)
          (if blog.IsDir || blog.IsMd then env.TransformLinks blog.Html else blog.Html) = true
      · rw [if_pos hw] at h
        cases h
      · rw [if_neg hw] at h
        injection h with h
        rw [← h]
  · rw [if_neg hs] at h
    injection h with h
    rw [← h]

/-- C7: a snapshot file is written only when generation is enabled, the status left by the
load stage is 200 and the cache holds the request's key. With `NOT_GEN` set the generation
stage returns its context untouched and the load stage still runs; with generation enabled
the stage leaves the chain aborted, so that the loader has been called once, by the stage
itself, and nothing runs after it. -/
theorem snapshot_only_after_success (env : Env) (fuel : Nat) (url : GoString) (w : World) :
    (∀ s, serveBlog env (fuel + 5) url w = .ok s → s.world.files ≠ w.files →
      env.config.NOT_GEN = false ∧ s.status = 200 ∧
      ∃ path, storagePath env url = some path ∧ (s.world.blogCache.Get path).isSome = true) ∧
    (env.config.NOT_GEN = true →
      (∀ next s, GenMiddleWare env next s = .ok s) ∧
      ∀ path, storagePath env url = some path → PathMatch path [env.priv] = false →
        w.blogCache.Get path = none →
        ∃ s, serveBlog env (fuel + 5) url w = .ok s ∧ s.world.loads = w.loads ++ [path] ∧
          s.world.files = w.files) ∧
    (env.config.NOT_GEN = false →
      (∀ next s r, GenMiddleWare env next s = .ok r → r.index = abortIndex) ∧
      ∀ path s, storagePath env url = some path → PathMatch path [env.priv] = false →
        w.blogCache.Get path = none → serveBlog env (fuel + 5) url w = .ok s →
        s.world.loads = w.loads ++ [path] ∧ s.index = abortIndex + 1) ∧
    serveBlog env (fuel + 5) url w ≠ .error .outOfFuel := by
  refine ⟨?_, ?_, ?_, serveBlog_total env fuel url w⟩
  · intro s hrun hfiles
    obtain ⟨path, hpath, hcase⟩ := serveBlog_outcome env fuel url w s hrun
    rcases hcase with ⟨_, _, _, hw, _⟩ | ⟨_, _, _, _, _, _, hw, _⟩ |
      ⟨_, _, _, _, _, _, hw, _⟩ | ⟨_, _, blog, _, _, hst, _, hw⟩
    · rw [hw] at hfiles; exact absurd rfl hfiles
    · rw [hw] at hfiles; exact absurd rfl hfiles
    · rw [hw] at hfiles; exact absurd rfl hfiles
    · rcases hw with ⟨_, _, hw⟩ | ⟨hgen, _, hw⟩
      · rw [hw] at hfiles; exact absurd rfl hfiles
      · refine ⟨hgen, hst, path, hpath, ?_⟩
        rw [hw]
        show ((w.blogCache.Set path blog).Get path).isSome = true
        rw [cache_get_set]
        rfl
  · intro hgen
    refine ⟨fun next s => by simp [GenMiddleWare, hgen], ?_⟩
    intro path hpath hpriv hget
    rw [serveBlog_miss_notgen env fuel url path w hpath hpriv hget hgen]
    cases env.LoadBlog path with
    | error err => exact ⟨_, rfl, rfl, rfl⟩
    | ok blog => exact ⟨_, rfl, rfl, rfl⟩
  · intro hgen
    constructor
    · intro next s r h
      simp only [GenMiddleWare, hgen, Bool.false_eq_true, if_false] at h
      cases hp : storagePath env s.url with
      | none => rw [hp] at h; cases h
      | some path =>
        rw [hp] at h
        simp only at h
        cases hn : next s with
        | error e => rw [hn] at h; cases h
        | ok s1 =>
          rw [hn] at h
          exact genSnapshot_index env s.url path (Abort s1) r h
    · intro path s hpath hpriv hget hrun
      rw [serveBlog_miss_gen env fuel url path w hpath hpriv hget hgen] at hrun
      cases hload : env.LoadBlog path with
      | error err =>
        rw [hload] at hrun
        injection hrun with hrun
        rw [← hrun]
        exact ⟨rfl, rfl⟩
      | ok blog =>
        rw [hload] at hrun
        simp only at hrun
        by_cases hw : env.MustWriteErr (env.GenPath url)
            (if blog.IsDir || blog.IsMd then env.TransformLinks blog.Html
             else blog.Html) = true
        · rw [if_pos hw] at hrun
          cases hrun
        · rw [if_neg hw] at hrun
          injection hrun with hrun
          rw [← hrun]
          exact ⟨rfl, rfl⟩

theorem snapshot_only_after_success_witness :
    demoEnv.config.NOT_GEN = false ∧
    ∃ s, serveBlog demoEnv 5 (str "/blog/intro.md") emptyWorld = .ok s ∧ s.status = 200 ∧
      s.world.files = [(str "docs/blog/intro.md.html", str "<h1>blog/intro.md</h1>")] ∧
      ∃ path, storagePath demoEnv (str "/blog/intro.md") = some path ∧
        (s.world.blogCache.Get path).isSome = true := by
  obtain ⟨s, hs, hfiles⟩ : ∃ s, serveBlog demoEnv 5 (str "/blog/intro.md") emptyWorld = .ok s ∧
      s.world.files = [(str "docs/blog/intro.md.html", str "<h1>blog/intro.md</h1>")] :=
    ⟨_, rfl, by decide⟩
  have h := (snapshot_only_after_success demoEnv 0 (str "/blog/intro.md") emptyWorld).1 s hs
    (by rw [hfiles]; decide)
  exact ⟨h.1, s, hs, h.2.1, hfiles, h.2.2⟩

/-- C9: when a first request for a routed URL that is not private finds no cache entry and
is answered 200, the load stage has stored the rendered item under `Url2Path(u)`, which is
the key the cache stage looks up; a second identical request is then answered by the cache
stage with status 200 and the same body, and leaves the shared objects as they were, the
loader calls included. -/
theorem load_then_hit_round_trip (env : Env) (fuel : Nat) (url path : GoString) (w : World)
    (s1 : St) (hpath : storagePath env url = some path)
    (hpriv : PathMatch path [env.priv] = false) (hmiss : w.blogCache.Get path = none)
    (hfirst : serveBlog env (fuel + 5) url w = .ok s1) (hok : s1.status = 200) :
    ∃ blog ct1 ct2, env.LoadBlog path = .ok blog ∧ Url2Path env url = some path ∧
      s1.out = [.data ct1 blog.Html] ∧ s1.world.blogCache.Get path = some blog ∧
      s1.world.loads = w.loads ++ [path] ∧
      serveBlog env (fuel + 5) url s1.world =
        .ok { url := url, index := abortIndex + 1, status := 200, written := true,
              out := [.data ct2 blog.Html], errors := [], world := s1.world } := by
  obtain ⟨path', hpath', hcase⟩ := serveBlog_outcome env fuel url w s1 hfirst
  have hpp : path' = path := by
    rw [hpath] at hpath'
    injection hpath' with h
    exact h.symm
  subst hpp
  obtain ⟨ctp, hctp⟩ := contentType_total path'
  rcases hcase with ⟨hp, _⟩ | ⟨_, _, _, hg, _⟩ | ⟨_, _, _, _, hst, _⟩ |
    ⟨_, _, blog, ct, hload, _, hout, hw⟩
  · rw [hpriv] at hp; cases hp
  · rw [hmiss] at hg; cases hg
  · rw [hok] at hst; cases hst
  · have hcache : s1.world.blogCache.Get path' = some blog := by
      rcases hw with ⟨_, _, hw⟩ | ⟨_, _, hw⟩ <;> rw [hw] <;> exact cache_get_set _ _ _
    have hloads : s1.world.loads = w.loads ++ [path'] := by
      rcases hw with ⟨_, _, hw⟩ | ⟨_, _, hw⟩ <;> rw [hw]
    exact ⟨blog, ct, ctp, hload, hpath, hout, hcache, hloads,
      serveBlog_hit env (fuel + 2) url path' ctp s1.world blog hpath hpriv hctp hcache⟩

theorem load_then_hit_round_trip_witness :
    ∃ s1, serveBlog demoEnv 5 (str "/blog/intro.md") emptyWorld = .ok s1 ∧
      ∃ (blog : BlogItem) (ct1 ct2 : GoString), s1.out = [.data ct1 blog.Html] ∧
        serveBlog demoEnv 5 (str "/blog/intro.md") s1.world =
          .ok { url := str "/blog/intro.md", index := abortIndex + 1, status := 200,
                written := true, out := [.data ct2 blog.Html], errors := [],
                world := s1.world } := by
  obtain ⟨s1, hs, hst⟩ : ∃ s, serveBlog demoEnv 5 (str "/blog/intro.md") emptyWorld = .ok s ∧
      s.status = 200 := ⟨_, rfl, by decide⟩
  obtain ⟨blog, ct1, ct2, _, _, hout, _, _, hsecond⟩ :=
    load_then_hit_round_trip demoEnv 0 (str "/blog/intro.md") (str "blog/intro.md") emptyWorld
      s1 (by decide) (by decide) (by decide) hs hst
  exact ⟨s1, hs, blog, ct1, ct2, hout, hsecond⟩

/-! ## The rate cascade -/

theorem limit_all_pass {L R : Type} (LimitByRequest : L → R → Option HTTPError × L) (r : R)
    (lmts : List L) (s : St) (h : ∀ l ∈ lmts, (LimitByRequest l r).1 = none) :
    LimitMiddleware LimitByRequest r lmts s = (s, lmts.map (fun l => (LimitByRequest l r).2)) := by
  induction lmts with
  | nil => rfl
  | cons l rest ih =>
    have h1 := h l (List.mem_cons_self _ _)
    have h2 := ih (fun l' hl' => h l' (List.mem_cons_of_mem _ hl'))
    cases hl : LimitByRequest l r with
    | mk e l1 =>
      rw [hl] at h1
      simp only at h1
      subst h1
      simp [LimitMiddleware, hl, h2]

theorem limit_first_denial {L R : Type} (LimitByRequest : L → R → Option HTTPError × L) (r : R)
    (before : List L) (l : L) (after : List L) (e : HTTPError) (s : St)
    (h : ∀ l' ∈ before, (LimitByRequest l' r).1 = none) (hl : (LimitByRequest l r).1 = some e) :
    LimitMiddleware LimitByRequest r (before ++ l :: after) s =
      (Abort (AbortWithStatusJSON e.StatusCode (.jsonError e.Message) s),
        before.map (fun l' => (LimitByRequest l' r).2) ++ (LimitByRequest l r).2 :: after) := by
  induction before with
  | nil =>
    cases hl' : LimitByRequest l r with
    | mk e' l1 =>
      rw [hl'] at hl
      simp only at hl
      subst hl
      simp [LimitMiddleware, hl']
  | cons b rest ih =>
    have h1 := h b (List.mem_cons_self _ _)
    have h2 := ih (fun l' hl' => h l' (List.mem_cons_of_mem _ hl'))
    cases hb : LimitByRequest b r with
    | mk e' b1 =>
      rw [hb] at h1
      simp only at h1
      subst h1
      simp [LimitMiddleware, hb, h2]

theorem abortWithStatusJSON_index (code : Int) (p : Payload) (s : St) :
    (Abort (AbortWithStatusJSON code p s)).index = abortIndex := rfl

theorem exists_first_denial {L R : Type} (LimitByRequest : L → R → Option HTTPError × L) (r : R)
    (lmts : List L) (h : ¬ ∀ l ∈ lmts, (LimitByRequest l r).1 = none) :
    ∃ before l after e, lmts = before ++ l :: after ∧
      (∀ l' ∈ before, (LimitByRequest l' r).1 = none) ∧ (LimitByRequest l r).1 = some e := by
  induction lmts with
  | nil => exact absurd (fun _ hl => by simp at hl) h
  | cons a rest ih =>
    cases ha : (LimitByRequest a r).1 with
    | some e => exact ⟨[], a, rest, e, rfl, by simp, ha⟩
    | none =>
      have : ¬ ∀ l ∈ rest, (LimitByRequest l r).1 = none := by
        intro hall
        apply h
        intro l hl
        rcases List.mem_cons.1 hl with rfl | hl
        · exact ha
        · exact hall l hl
      obtain ⟨before, l, after, e, heq, hb, hl⟩ := ih this
      refine ⟨a :: before, l, after, e, by simp [heq], ?_, hl⟩
      intro l' hl'
      rcases List.mem_cons.1 hl' with rfl | hl'
      · exact ha
      · exact hb l' hl'

/-- C4: `LimitMiddleware` lets a request proceed exactly when every limiter admits it; at the
first limiter that denies, in list order, it aborts with that limiter's status code and
message, and the limiters after it are left as they were (they are not consulted). -/
theorem limit_cascade_conjunction {L R : Type}
    (LimitByRequest : L → R → Option HTTPError × L) (r : R) (lmts : List L) (s : St)
    (hs : s.IsAborted = false) :
    ((LimitMiddleware LimitByRequest r lmts s).1.IsAborted = false ↔
      ∀ l ∈ lmts, (LimitByRequest l r).1 = none) ∧
    ((∀ l ∈ lmts, (LimitByRequest l r).1 = none) →
      LimitMiddleware LimitByRequest r lmts s =
        (s, lmts.map (fun l => (LimitByRequest l r).2))) ∧
    (∀ before l after e, lmts = before ++ l :: after →
      (∀ l' ∈ before, (LimitByRequest l' r).1 = none) → (LimitByRequest l r).1 = some e →
      LimitMiddleware LimitByRequest r lmts s =
        (Abort (AbortWithStatusJSON e.StatusCode (.jsonError e.Message) s),
          before.map (fun l' => (LimitByRequest l' r).2) ++ (LimitByRequest l r).2 :: after) ∧
      (s.written = false → 400 ≤ e.StatusCode →
        (LimitMiddleware LimitByRequest r lmts s).1.status = e.StatusCode ∧
        (LimitMiddleware LimitByRequest r lmts s).1.out = s.out ++ [.jsonError e.Message])) := by
  refine ⟨⟨?_, ?_⟩, limit_all_pass LimitByRequest r lmts s, ?_⟩
  · intro h
    by_contra hne
    obtain ⟨before, l, after, e, heq, hb, hl⟩ := exists_first_denial LimitByRequest r lmts hne
    rw [heq, limit_first_denial LimitByRequest r before l after e s hb hl] at h
    simp [St.IsAborted, abortWithStatusJSON_index] at h
  · intro h
    rw [limit_all_pass LimitByRequest r lmts s h]
    exact hs
  · intro before l after e heq hb hl
    subst heq
    rw [limit_first_denial LimitByRequest r before l after e s hb hl]
    refine ⟨rfl, ?_⟩
    intro hw hcode
    have h1 : 0 < e.StatusCode := by omega
    have h2 : bodyAllowedForStatus e.StatusCode = true := by
      simp [bodyAllowedForStatus]
      omega
    by_cases h3 : s.status = e.StatusCode
    · simp [Abort, AbortWithStatusJSON, Render, Status, h2, h3]
    · simp [Abort, AbortWithStatusJSON, Render, Status, h1, h2, h3, hw]

theorem limit_cascade_conjunction_witness :
    LimitMiddleware demoLimit () [5, 0, 7] (reset (str "/blog/intro.md") emptyWorld) =
      (Abort (AbortWithStatusJSON 429
          (.jsonError (str "You have reached maximum request limit."))
          (reset (str "/blog/intro.md") emptyWorld)),
        [4, 0, 7]) :=
  ((limit_cascade_conjunction demoLimit () [5, 0, 7] (reset (str "/blog/intro.md") emptyWorld)
      (by decide)).2.2 [5] 0 [7]
      { Message := str "You have reached maximum request limit.", StatusCode := 429 }
      rfl (by decide) (by decide)).1

/-! ## Search dispatch -/

theorem abortWithStatusJSON_400 (msg : GoString) (s : St) (hw : s.written = false) :
    AbortWithStatusJSON 400 (.jsonError msg) s =
      { s with index := abortIndex, status := 400, written := true,
               out := s.out ++ [.jsonError msg] } := by
  by_cases h : s.status = 400
  · simp [AbortWithStatusJSON, Render, Status, Abort, bodyAllowedForStatus, h]
  · simp [AbortWithStatusJSON, Render, Status, Abort, bodyAllowedForStatus, h, hw]

/-- C5: `SearchMiddleWare` answers 400 with reason "keyword is empty" when the keyword is
empty, whatever the strategy name; with a keyword, and `num` absent or an integer, it answers
400 with reason "search type not found" when the strategy name (`title` for an empty
`searchType`) is not a key of the registry. In both cases no strategy is called. -/
theorem search_dispatch_rejects (env : Env) (searchers : SyncMap) (q : Query) (s : St)
    (hw : s.written = false) :
    (q.keyword.getD [] = [] →
      SearchMiddleWare env searchers q s =
        .ok { s with index := abortIndex, status := 400, written := true,
                     out := s.out ++ [.jsonError (str "keyword is empty")] }) ∧
    (q.keyword.getD [] ≠ [] →
      (q.num = none ∨ ∃ n k, q.num = some n ∧ Atoi n = some k) →
      SyncMap.Load searchers
        (if q.searchType.getD [] = [] then str "title" else q.searchType.getD []) = none →
      SearchMiddleWare env searchers q s =
        .ok { s with index := abortIndex, status := 400, written := true,
                     out := s.out ++ [.jsonError (str "search type not found")] }) := by
  constructor
  · intro hk
    simp only [SearchMiddleWare, hk, if_true]
    rw [abortWithStatusJSON_400 _ _ hw]
  · intro hk hnum hload
    rcases hnum with hnum | ⟨n, k, hnum, hk2⟩
    · simp only [SearchMiddleWare, hk, if_false, hnum, hload]
      rw [abortWithStatusJSON_400 _ _ hw]
    · simp only [SearchMiddleWare, hk, if_false, hnum, hk2, hload]
      rw [abortWithStatusJSON_400 _ _ hw]

theorem search_dispatch_rejects_witness :
    SearchMiddleWare demoEnv
        (demoRegistry { demoConfig with SEARCH_PLUGINS := [⟨str "title", true⟩] })
        { keyword := some (str "foo"), num := some (str "10"), searchType := some (str "title") }
        (reset (str "/api/search") emptyWorld) =
      .ok { reset (str "/api/search") emptyWorld with
              index := abortIndex, status := 400, written := true,
              out := [.jsonError (str "search type not found")] } :=
  (search_dispatch_rejects demoEnv
      (demoRegistry { demoConfig with SEARCH_PLUGINS := [⟨str "title", true⟩] })
      { keyword := some (str "foo"), num := some (str "10"), searchType := some (str "title") }
      (reset (str "/api/search") emptyWorld) rfl).2
    (by decide) (Or.inr ⟨str "10", 10, rfl, by decide⟩) rfl

theorem convertPaths_acc (env : Env) (results acc : List GoString) :
    convertPaths env acc results =
      some (acc ++ (results.filter
          (fun p => decide (p ≠ []) && decide (env.config.BLOG_PATH.length ≤ p.length))).map
        (fun p => env.SimplifyPath (env.config.BLOG_ROUTER ++ p.drop env.config.BLOG_PATH.length))) := by
  induction results generalizing acc with
  | nil => simp [convertPaths]
  | cons p rest ih =>
    by_cases h : p = [] ∨ p.length < env.config.BLOG_PATH.length
    · have hf : (decide (p ≠ []) && decide (env.config.BLOG_PATH.length ≤ p.length)) = false := by
        rcases h with h | h
        · simp [h]
        · have : ¬ env.config.BLOG_PATH.length ≤ p.length := by omega
          simp [this]
      rw [convertPaths, if_pos h, ih, List.filter_cons, hf]
      simp
    · have hlen : env.config.BLOG_PATH.length ≤ p.length := by
        by_contra hc; exact h (Or.inr (by omega))
      have hne : p ≠ [] := fun hc => h (Or.inl hc)
      have hf : (decide (p ≠ []) && decide (env.config.BLOG_PATH.length ≤ p.length)) = true := by
        simp [hne, hlen]
      rw [convertPaths, if_neg h]
      simp only [ToSlash, sliceFrom, hlen, if_true]
      rw [ih, List.filter_cons, hf]
      simp

/-- C6: the list `SearchMiddleWare` answers with is, in order,
`SimplifyPath(BLOG_ROUTER + p[len(BLOG_PATH):])` for the raw paths `p` that are non-empty and
at least `len(BLOG_PATH)` long; the slice never faults and the answer is never longer than
the strategy's result. -/
theorem search_result_translation (env : Env) (searchers : SyncMap) (q : Query) (s : St)
    (searcher : Searcher) (num : Int) (results : List GoString)
    (hk : q.keyword.getD [] ≠ [])
    (hnum : (match q.num with | none => some env.config.SEARCH_NUM | some n => Atoi n) = some num)
    (hload : SyncMap.Load searchers
      (if q.searchType.getD [] = [] then str "title" else q.searchType.getD []) =
        some (.searcher searcher))
    (hres : searcher.Search (q.keyword.getD []) num = .ok results) :
    SearchMiddleWare env searchers q s =
      .ok (Render 200
        (.jsonStrings ((results.filter
            (fun p => decide (p ≠ []) && decide (env.config.BLOG_PATH.length ≤ p.length))).map
          (fun p => env.SimplifyPath
            (env.config.BLOG_ROUTER ++ p.drop env.config.BLOG_PATH.length))))
        { s with world := { s.world with searches := s.world.searches ++
            [(if q.searchType.getD [] = [] then str "title" else q.searchType.getD [],
              q.keyword.getD [], num)] } }) ∧
    (∀ p ∈ results, p ≠ [] → env.config.BLOG_PATH.length ≤ p.length →
      sliceFrom (ToSlash p) env.config.BLOG_PATH.length =
        some (p.drop env.config.BLOG_PATH.length)) ∧
    ((results.filter
        (fun p => decide (p ≠ []) && decide (env.config.BLOG_PATH.length ≤ p.length))).map
      (fun p => env.SimplifyPath
        (env.config.BLOG_ROUTER ++ p.drop env.config.BLOG_PATH.length))).length
      ≤ results.length := by
  refine ⟨?_, ?_, ?_⟩
  · simp only [SearchMiddleWare, hk, if_false, hnum, hload, hres, convertPaths_acc,
      List.nil_append]
  · intro p _ _ hlen
    simp [sliceFrom, ToSlash, hlen]
  · rw [List.length_map]
    exact List.length_filter_le _ _

theorem search_result_translation_witness :
    SearchMiddleWare demoEnv [(str "title", .searcher demoFinder)]
        { keyword := some (str "intro"), num := none, searchType := none }
        (reset (str "/api/search") emptyWorld) =
      .ok (Render 200 (.jsonStrings [str "/blog/intro.md", str "/blog/keyword.md"])
        { reset (str "/api/search") emptyWorld with
            world := { emptyWorld with searches := [(str "title", str "intro", 10)] } }) :=
  (search_result_translation demoEnv [(str "title", .searcher demoFinder)]
      { keyword := some (str "intro"), num := none, searchType := none }
      (reset (str "/api/search") emptyWorld) demoFinder 10
      [str "blog/intro.md", str "x", str "blog/keyword.md"]
      (by decide) rfl rfl rfl).1

/-! ## The searcher registry -/

theorem load_delete_self (m : SyncMap) (key : GoString) :
    SyncMap.Load (SyncMap.Delete m key) key = none :=
  lookup_filter_self m key

theorem load_delete_other (m : SyncMap) (key k : GoString) (hk : k ≠ key) :
    SyncMap.Load (SyncMap.Delete m key) k = SyncMap.Load m k :=
  lookup_filter_other m key k hk

theorem load_store_other (m : SyncMap) (key k : GoString) (v : Registered) (hk : k ≠ key) :
    SyncMap.Load (SyncMap.Store m key v) k = SyncMap.Load m k := by
  show List.lookup k ((key, v) :: SyncMap.Delete m key) = _
  rw [lookup_cons_eq, if_neg hk]
  exact lookup_filter_other m key k hk

theorem storePlugins_append (mk : SearchPlugin → Registered) (m : SyncMap)
    (xs ys : List SearchPlugin) :
    storePlugins mk m (xs ++ ys) = storePlugins mk (storePlugins mk m xs) ys := by
  induction xs generalizing m with
  | nil => rfl
  | cons p xs ih =>
    by_cases hp : p.Disable = true
    · simp [storePlugins, hp, ih]
    · simp [storePlugins, hp, ih]

theorem storePlugins_stays_absent (mk : SearchPlugin → Registered) (m : SyncMap)
    (plugins : List SearchPlugin) (name : GoString)
    (hlater : ∀ q ∈ plugins, q.Name = name → q.Disable = true)
    (hm : SyncMap.Load m name = none) :
    SyncMap.Load (storePlugins mk m plugins) name = none := by
  induction plugins generalizing m with
  | nil => exact hm
  | cons p rest ih =>
    have hrest : ∀ q ∈ rest, q.Name = name → q.Disable = true :=
      fun q hq => hlater q (List.mem_cons_of_mem _ hq)
    by_cases hp : p.Disable = true
    · rw [storePlugins, if_pos hp]
      apply ih _ hrest
      by_cases hn : name = p.Name
      · rw [hn]; exact load_delete_self m p.Name
      · rw [load_delete_other m p.Name name hn]; exact hm
    · rw [storePlugins, if_neg hp]
      apply ih _ hrest
      have hn : name ≠ p.Name := fun h => hp (hlater p (List.mem_cons_self _ _) h.symm)
      rw [load_store_other m p.Name name _ hn]; exact hm

/-- C10 (amended): after `NewApp` has built the registry, the name of a plugin declared with
`Disable` set is not a key of the registry, also when it is the name of a built-in strategy,
provided no later entry of `SEARCH_PLUGINS` with the same name is enabled; a search naming it
(the name not empty) is then answered 400 "search type not found". -/
theorem disabled_plugin_absent (title content keyword bleve : Registered)
    (NewSearcherByPlugin : SearchPlugin → Registered) (env : Env)
    (before : List SearchPlugin) (p : SearchPlugin) (after : List SearchPlugin)
    (hcfg : env.config.SEARCH_PLUGINS = before ++ p :: after) (hp : p.Disable = true)
    (hlater : ∀ q ∈ after, q.Name = p.Name → q.Disable = true) :
    SyncMap.Load (NewApp_searchers title content keyword bleve NewSearcherByPlugin env.config)
      p.Name = none ∧
    (∀ (kw : GoString) (s : St), kw ≠ [] → p.Name ≠ [] → s.written = false →
      SearchMiddleWare env
        (NewApp_searchers title content keyword bleve NewSearcherByPlugin env.config)
        { keyword := some kw, num := none, searchType := some p.Name } s =
        .ok { s with index := abortIndex, status := 400, written := true,
                     out := s.out ++ [.jsonError (str "search type not found")] }) := by
  have hload : SyncMap.Load
      (NewApp_searchers title content keyword bleve NewSearcherByPlugin env.config) p.Name
        = none := by
    unfold NewApp_searchers
    rw [hcfg, storePlugins_append]
    rw [storePlugins, if_pos hp]
    exact storePlugins_stays_absent _ _ _ _ hlater (load_delete_self _ _)
  refine ⟨hload, ?_⟩
  intro kw s hkw hname hw
  simp only [SearchMiddleWare, Option.getD_some, hkw, hname, if_false, hload]
  rw [abortWithStatusJSON_400 _ _ hw]

theorem disabled_plugin_absent_witness :
    SyncMap.Load
      (demoRegistry { demoConfig with SEARCH_PLUGINS := [⟨str "grep", false⟩, ⟨str "bleve", true⟩] })
      (str "bleve") = none :=
  (disabled_plugin_absent _ _ _ _ _
    { demoEnv with
        config := { demoConfig with SEARCH_PLUGINS := [⟨str "grep", false⟩, ⟨str "bleve", true⟩] } }
    [⟨str "grep", false⟩] ⟨str "bleve", true⟩ [] rfl rfl (by simp)).1

/-- C10 as stated fails: a plugin entry declared with `Disable` set, followed by an enabled
entry of the same name, leaves the name a key of the registry. -/
theorem disabled_plugin_present_when_redeclared :
    (⟨str "grep", true⟩ : SearchPlugin) ∈
      ({ demoConfig with SEARCH_PLUGINS := [⟨str "grep", true⟩, ⟨str "grep", false⟩] } : Config).SEARCH_PLUGINS ∧
    (SyncMap.Load
      (demoRegistry { demoConfig with SEARCH_PLUGINS := [⟨str "grep", true⟩, ⟨str "grep", false⟩] })
      (str "grep")).isSome = true := by
  constructor
  · simp
  · rfl

end Ybook
